import Mathlib

/-!
Verification of the JunctionRelay element-plugin discovery and registry
subsystem (packages/host/src/discovery.ts, packages/host/src/registry.ts,
packages/sdk/src/validation.ts), shallowly embedded in Lean.

JavaScript runtime values that can result from `JSON.parse` are modelled by
the mutual inductive `JValue`; `undefined` is modelled as `Option.none` at
use sites (absent object fields).  The filesystem is modelled abstractly by
a structure of functions (`FS`); file contents are modelled by their
JSON-parse outcome (`FileData`), since `JSON.parse` itself is a platform
builtin.  Code that can throw is embedded in `Except Unit`.
-/

mutual

/-- A JSON value as produced by `JSON.parse` (numbers modelled as integers;
the manifests under scrutiny only ever use integral literals). -/
inductive JValue where
  | null : JValue
  | bool (b : Bool) : JValue
  | num (n : Int) : JValue
  | str (s : String) : JValue
  | arr (xs : JList) : JValue
  | obj (fields : JFields) : JValue

inductive JList where
  | nil : JList
  | cons (hd : JValue) (tl : JList) : JList

inductive JFields where
  | nil : JFields
  | cons (key : String) (val : JValue) (tl : JFields) : JFields

end

mutual

def jbeq : JValue → JValue → Bool
  | .null, .null => true
  | .bool a, .bool b => a = b
  | .num a, .num b => a = b
  | .str a, .str b => a = b
  | .arr a, .arr b => jbeqList a b
  | .obj a, .obj b => jbeqFields a b
  | _, _ => false

def jbeqList : JList → JList → Bool
  | .nil, .nil => true
  | .cons a as, .cons b bs => jbeq a b && jbeqList as bs
  | _, _ => false

def jbeqFields : JFields → JFields → Bool
  | .nil, .nil => true
  | .cons k v tl, .cons k' v' tl' => (k = k' && jbeq v v') && jbeqFields tl tl'
  | _, _ => false

end

mutual

theorem jbeq_iff : ∀ a b : JValue, jbeq a b = true ↔ a = b
  | .null, b => by cases b <;> simp [jbeq]
  | .bool a, b => by cases b <;> simp [jbeq]
  | .num a, b => by cases b <;> simp [jbeq]
  | .str a, b => by cases b <;> simp [jbeq]
  | .arr a, b => by
      cases b <;> simp [jbeq]
      exact jbeqList_iff a _
  | .obj a, b => by
      cases b <;> simp [jbeq]
      exact jbeqFields_iff a _

theorem jbeqList_iff : ∀ a b : JList, jbeqList a b = true ↔ a = b
  | .nil, b => by cases b <;> simp [jbeqList]
  | .cons a as, b => by
      cases b with
      | nil => simp [jbeqList]
      | cons b bs =>
          simp [jbeqList, Bool.and_eq_true, jbeq_iff a b, jbeqList_iff as bs]

theorem jbeqFields_iff : ∀ a b : JFields, jbeqFields a b = true ↔ a = b
  | .nil, b => by cases b <;> simp [jbeqFields]
  | .cons k v tl, b => by
      cases b with
      | nil => simp [jbeqFields]
      | cons k' v' tl' =>
          simp [jbeqFields, Bool.and_eq_true, jbeq_iff v v', jbeqFields_iff tl tl',
            and_assoc]

end

instance : DecidableEq JValue := fun a b =>
  decidable_of_iff (jbeq a b = true) (jbeq_iff a b)

instance : DecidableEq JList := fun a b =>
  decidable_of_iff (jbeqList a b = true) (jbeqList_iff a b)

instance : DecidableEq JFields := fun a b =>
  decidable_of_iff (jbeqFields a b = true) (jbeqFields_iff a b)

/-- Convert a `JList` to a Lean list (used to model JS array iteration). -/
def JList.toList : JList → List JValue
  | .nil => []
  | .cons x xs => x :: xs.toList

/-- Last-binding-wins field lookup: `JSON.parse` keeps the last occurrence of a
duplicated key, so the observable binding is the last one. -/
def JFields.get : JFields → String → Option JValue
  | .nil, _ => none
  | .cons k v tl, key =>
      match tl.get key with
      | some w => some w
      | none => if k = key then some v else none

/-- JS property access `v[key]` for the cases reachable from parsed JSON,
EXCLUDING `null` (access on `null` throws and is handled explicitly at the
single place it can occur).  Primitives and arrays yield `undefined` for the
(non-index) keys used by the code. -/
def jGet : JValue → String → Option JValue
  | .obj fields, key => fields.get key
  | _, _ => none

mutual

/-- JS `String(v)` conversion of the values reachable here (no functions or
symbols exist in parsed JSON). -/
def jsToStr : JValue → String
  | .null => "null"
  | .bool true => "true"
  | .bool false => "false"
  | .num n => toString n
  | .str s => s
  | .arr xs => jsArrJoin xs
  | .obj _ => "[object Object]"

def jsElemStr : JValue → String
  | .null => ""
  | .bool true => "true"
  | .bool false => "false"
  | .num n => toString n
  | .str s => s
  | .arr xs => jsArrJoin xs
  | .obj _ => "[object Object]"

def jsArrJoin : JList → String
  | .nil => ""
  | .cons x .nil => jsElemStr x
  | .cons x (.cons y xs) => jsElemStr x ++ "," ++ jsArrJoin (.cons y xs)

end

/-- JS `String(v)` where `v` may be `undefined` (modelled as `none`). -/
def jsToStrOpt : Option JValue → String
  | none => "undefined"
  | some v => jsToStr v

/-- JS strict equality `===` between two possibly-`undefined` values, as used
on the (string-valued) `elementType` fields: primitives compare structurally,
distinct object/array references compare unequal. -/
def jsStrictEq : Option JValue → Option JValue → Bool
  | none, none => true
  | some .null, some .null => true
  | some (.bool a), some (.bool b) => a = b
  | some (.num a), some (.num b) => a = b
  | some (.str a), some (.str b) => a = b
  | _, _ => false

/-- `v === "lit"` for a possibly-undefined JS value against a string literal. -/
def isStrLit (v : Option JValue) (lit : String) : Bool :=
  match v with
  | some (.str s) => s = lit
  | _ => false

/-- Truthiness-plus-`typeof v === "object"` test
(`junctionrelay && typeof junctionrelay === "object"`): holds exactly for
non-null objects and arrays. -/
def truthyObject : JValue → Bool
  | .obj _ => true
  | .arr _ => true
  | _ => false

/-- JS property access `v.key` including its failure mode: accessing a
property of `null` throws a TypeError (`JSON.parse` cannot yield
`undefined`, so `null` is the only throwing receiver here). -/
def jGetOrThrow (v : JValue) (key : String) : Except Unit (Option JValue) :=
  match v with
  | .null => .error ()
  | _ => .ok (jGet v key)

theorem jGetOrThrow_of_ne_null (v : JValue) (key : String) (h : v ≠ JValue.null) :
    jGetOrThrow v key = .ok (jGet v key) := by
  cases v <;> simp [jGetOrThrow] at h ⊢

example : jsToStr (.arr (.cons (.num 1) (.cons .null (.cons (.str "a") .nil)))) = "1,,a" := by
  decide

example : jsToStr (.str "hi") = "hi" := rfl

example : jGet (.obj (.cons "a" (.num 1) .nil)) "a" = some (.num 1) := rfl

/-- Does the character list `hay` start with `pat`? -/
def listStartsWith : List Char → List Char → Bool
  | _, [] => true
  | [], _ :: _ => false
  | a :: as, b :: bs => a = b && listStartsWith as bs

/-- Does `hay` contain `pat` as a contiguous run? -/
def listHasRun : List Char → List Char → Bool
  | [], pat => pat.isEmpty
  | c :: t, pat => listStartsWith (c :: t) pat || listHasRun t pat

/-- `hay` mentions `pat` as a substring (models JS `String.includes`). -/
def strMentions (hay pat : String) : Bool :=
  listHasRun hay.data pat.data

/-- `s.startsWith(pre)` on strings (models JS `String.startsWith`). -/
def strStartsWith (s pre : String) : Bool :=
  listStartsWith s.data pre.data

/-- `Array.prototype.join(sep)` on an array of strings. -/
def joinWith (sep : String) : List String → String
  | [] => ""
  | [x] => x
  | x :: y :: t => x ++ sep ++ joinWith sep (y :: t)

/-- Split a character list at a separator character (every occurrence),
keeping empty segments, like splitting for regex-segment analysis. -/
def segsOn (sep : Char) : List Char → List (List Char)
  | [] => [[]]
  | c :: t =>
      if c = sep then [] :: segsOn sep t
      else
        match segsOn sep t with
        | [] => [[c]]
        | s :: ss => (c :: s) :: ss

/-- `'a' ≤ c ≤ 'z'`. -/
def lowerAlpha (c : Char) : Bool :=
  decide ('a' ≤ c) && decide (c ≤ 'z')

/-- `[a-z0-9]`. -/
def lowerAlnum (c : Char) : Bool :=
  lowerAlpha c || (decide ('0' ≤ c) && decide (c ≤ '9'))

/-- The regex `ELEMENT_TYPE_PATTERN = /^[a-z][a-z0-9]*(-[a-z0-9]+)*$/` shared
by `packages/sdk/src/validation.ts` and the host discovery module: splitting
at `'-'` must give a head segment matching `[a-z][a-z0-9]*` and tail segments
each matching `[a-z0-9]+` (segments cannot contain `'-'`, so the split view is
equivalent to the regex). -/
def elementTypeTest (s : String) : Bool :=
  match segsOn '-' s.data with
  | [] => false
  | seg :: rest =>
      (match seg with
       | [] => false
       | c :: cs => lowerAlpha c && cs.all lowerAlnum)
      && rest.all (fun sg => !sg.isEmpty && sg.all lowerAlnum)

example : elementTypeTest "stock-ticker" = true := by decide
example : elementTypeTest "gauge-x" = true := by decide
example : elementTypeTest "Bad Name" = false := by decide
example : elementTypeTest "a--b" = false := by decide
example : elementTypeTest "-a" = false := by decide
example : elementTypeTest "a-" = false := by decide
example : elementTypeTest "9a" = false := by decide
example : elementTypeTest "" = false := by decide

/-- `ELEMENT_CATEGORIES` from `packages/protocol/src/index.ts`
(also the identical inline `VALID_CATEGORIES` of the host discovery module). -/
def ELEMENT_CATEGORIES : List String :=
  ["Data", "Media", "Visualization", "Effects", "Utility"]

-- ---------------------------------------------------------------------------
-- packages/sdk/src/validation.ts
-- ---------------------------------------------------------------------------

/-- Result record of `validateManifest` (`packages/sdk/src/validation.ts`). -/
structure ValidationResult where
  valid : Bool
  errors : List String
  deriving DecidableEq

/-- `typeof v === "string" && v.length > 0` at field `key` of `m`. -/
def nonEmptyStrAt (m : JValue) (key : String) : Bool :=
  match jGet m key with
  | some (.str s) => !s.isEmpty
  | _ => false

/-- `typeof v === "boolean"` at field `key` of `m`. -/
def boolAt (m : JValue) (key : String) : Bool :=
  match jGet m key with
  | some (.bool _) => true
  | _ => false

/-- The `defaultSize` acceptance test: non-null object with numeric `width`
and numeric `height` (an array has neither property, `null`/primitives fail
the earlier guards). -/
def sizeOkAt (m : JValue) : Bool :=
  match jGet m "defaultSize" with
  | some (.obj fields) =>
      (match fields.get "width" with
       | some (.num _) => true
       | _ => false)
      && (match fields.get "height" with
          | some (.num _) => true
          | _ => false)
  | _ => false

/-- The `defaultProperties` acceptance test: non-null, `typeof === "object"`,
not an array — hence exactly a JSON object. -/
def propsOkAt (m : JValue) : Bool :=
  match jGet m "defaultProperties" with
  | some (.obj _) => true
  | _ => false

/-- The `category` acceptance test: a string member of `ELEMENT_CATEGORIES`. -/
def categoryOkAt (m : JValue) : Bool :=
  match jGet m "category" with
  | some (.str s) => ELEMENT_CATEGORIES.contains s
  | _ => false

/-- The `elementType` acceptance test: a string matching the pattern. -/
def elementTypeOkAt (m : JValue) : Bool :=
  match jGet m "elementType" with
  | some (.str s) => elementTypeTest s
  | _ => false

/-- The `layoutModes` check of `validateManifest`: absent is fine; a
non-array is one error; an array is an error iff it has members that are
neither the string `"composite"` nor the string `"pixel"`, naming them. -/
def layoutModesErrors (m : JValue) : List String :=
  match jGet m "layoutModes" with
  | none => []
  | some v =>
      match v with
      | .arr xs =>
          let invalid := xs.toList.filter
            (fun mo => !(isStrLit (some mo) "composite") && !(isStrLit (some mo) "pixel"))
          if invalid.isEmpty then []
          else ["layoutModes contains invalid values: "
                ++ joinWith ", " (invalid.map jsElemStr)
                ++ "; allowed: composite, pixel"]
      | _ => ["layoutModes must be an array if provided"]

/-- `validateManifest` (`packages/sdk/src/validation.ts`): checks the
`junctionrelay` field of a plugin `package.json` against the SDK schema,
accumulating one error message per violated field; a non-object input
short-circuits with a single generic error. -/
def validateManifest (manifest : JValue) : ValidationResult :=
  match manifest with
  | .obj _ | .arr _ =>
      let m := manifest
      let errors :=
        (if isStrLit (jGet m "type") "element" then []
         else ["type must be 'element', got '" ++ jsToStrOpt (jGet m "type") ++ "'"]) ++
        (if nonEmptyStrAt m "entry" then []
         else ["entry must be a non-empty string (e.g. \"dist/index.js\")"]) ++
        (if elementTypeOkAt m then []
         else ["elementType must be lowercase kebab-case (e.g. 'stock-ticker'), got '"
               ++ jsToStrOpt (jGet m "elementType") ++ "'"]) ++
        (if nonEmptyStrAt m "displayName" then []
         else ["displayName must be a non-empty string"]) ++
        (if nonEmptyStrAt m "description" then []
         else ["description must be a non-empty string"]) ++
        (if categoryOkAt m then []
         else ["category must be one of: " ++ joinWith ", " ELEMENT_CATEGORIES
               ++ "; got '" ++ jsToStrOpt (jGet m "category") ++ "'"]) ++
        (if nonEmptyStrAt m "icon" then []
         else ["icon must be a non-empty string (MUI icon name)"]) ++
        (if boolAt m "sensorBound" then []
         else ["sensorBound must be a boolean"]) ++
        (if sizeOkAt m then []
         else ["defaultSize must be \x7b width: number, height: number \x7d"]) ++
        (if propsOkAt m then []
         else ["defaultProperties must be an object"]) ++
        layoutModesErrors m
      ⟨errors.isEmpty, errors⟩
  | _ => ⟨false, ["manifest must be an object"]⟩

-- ---------------------------------------------------------------------------
-- packages/host/src/discovery.ts
-- ---------------------------------------------------------------------------

/-- A filesystem path, as the list of segments that `path.join` would
concatenate below the (already `path.resolve`d) root. -/
abbrev FsPath := List String

/-- A file's contents, modelled by the outcome of `JSON.parse` on its text
(`JSON.parse` is a platform builtin): either unparsable text or a value. -/
inductive FileData where
  | unparsable : FileData
  | json (v : JValue) : FileData
  deriving DecidableEq

/-- Abstract synchronous filesystem: `existsSync`, `statSync(...).isDirectory()`
(false also when `statSync` throws), `readdirSync` (`none` models a throw) and
`readFileSync` (`none` models a throw). -/
structure FS where
  existsSync : FsPath → Bool
  isDirectory : FsPath → Bool
  readdir : FsPath → Option (List String)
  readFile : FsPath → Option FileData

/-- `safeReaddir` from `discovery.ts`: stat the path, return `[]` when stat
throws or the path is not a directory, else the entries, with a readdir
throw also swallowed into `[]`. -/
def safeReaddir (fs : FS) (dirPath : FsPath) : List String :=
  if fs.isDirectory dirPath then (fs.readdir dirPath).getD [] else []

/-- An entry that was found but rejected (`SkippedEntry` in `discovery.ts`). -/
structure SkippedEntry where
  path : FsPath
  reason : String
  deriving DecidableEq

/-- `DiscoveredElementPlugin` from the protocol package, as produced by
discovery: `name`/`version` keep the raw JS values that
`(pkg.name as string) ?? basename` produces (the cast is a no-op at runtime,
so a non-string `name` field flows through). -/
structure DiscoveredElementPlugin where
  name : JValue
  version : JValue
  path : FsPath
  entry : Option JValue
  manifest : JValue
  deriving DecidableEq

/-- Result of a discovery scan (`DiscoveryResult` in `discovery.ts`). -/
structure DiscoveryResult where
  plugins : List DiscoveredElementPlugin
  skipped : List SkippedEntry
  deriving DecidableEq

/-- `VALID_CATEGORIES` of the inline validator in `discovery.ts`; its members
are identical to `ELEMENT_CATEGORIES`. -/
def VALID_CATEGORIES : List String :=
  ["Data", "Media", "Visualization", "Effects", "Utility"]

/-- The inline `category` test of `discovery.ts` (string member of
`VALID_CATEGORIES`). -/
def categoryOkInline (m : JValue) : Bool :=
  match jGet m "category" with
  | some (.str s) => VALID_CATEGORIES.contains s
  | _ => false

/-- `validateElementManifest` (inline validator of `discovery.ts`): returns
the accumulated error list; note that it requires a boolean
`sensorTagCompatible` field (not `sensorBound`). -/
def validateElementManifest (m : JValue) : List String :=
  (if nonEmptyStrAt m "entry" then [] else ["missing entry"]) ++
  (if elementTypeOkAt m then []
   else ["invalid elementType '" ++ jsToStrOpt (jGet m "elementType") ++ "'"]) ++
  (if nonEmptyStrAt m "displayName" then [] else ["missing displayName"]) ++
  (if nonEmptyStrAt m "description" then [] else ["missing description"]) ++
  (if categoryOkInline m then []
   else ["invalid category '" ++ jsToStrOpt (jGet m "category") ++ "'"]) ++
  (if nonEmptyStrAt m "icon" then [] else ["missing icon"]) ++
  (if boolAt m "sensorTagCompatible" then [] else ["missing sensorTagCompatible"]) ++
  (if sizeOkAt m then [] else ["invalid defaultSize"]) ++
  (if propsOkAt m then [] else ["invalid defaultProperties"])

/-- `path.basename(dirPath)` for a segment path. -/
def basename (dirPath : FsPath) : String :=
  (dirPath.getLast?).getD ""

/-- JS nullish coalescing `v ?? fallback` on a possibly-undefined value. -/
def nullish (v : Option JValue) (fallback : JValue) : JValue :=
  match v with
  | none => fallback
  | some .null => fallback
  | some w => w

/-- The `DiscoveredElementPlugin` that `tryLoadPlugin` pushes for an accepted
candidate: `name`/`version` use nullish fallbacks (`??`), `entry` is copied
from the manifest. -/
def mkDiscovered (dirPath : FsPath) (pkg jr : JValue) : DiscoveredElementPlugin :=
  { name := nullish (jGet pkg "name") (.str (basename dirPath)),
    version := nullish (jGet pkg "version") (.str "0.0.0"),
    path := dirPath,
    entry := jGet jr "entry",
    manifest := jr }

/-- The duplicate-elementType skip reason (template literal of
`tryLoadPlugin`; `${...}` performs the `String(...)` conversion). -/
def dupReason (jr : JValue) : String :=
  "Duplicate elementType '" ++ jsToStrOpt (jGet jr "elementType")
    ++ "' — already registered"

/-- `tryLoadPlugin` from `discovery.ts`, acting on the accumulated
`DiscoveryResult` (the source mutates the `plugins`/`skipped` arrays).
`Except.error ()` models an uncaught exception: the only uncaught throw in
the body is the property access `pkg.junctionrelay` when the parsed
descriptor is JSON `null` (a TypeError outside both `try` blocks). -/
def tryLoadPlugin (fs : FS) (dirPath : FsPath) (res : DiscoveryResult) :
    Except Unit DiscoveryResult :=
  let pkgPath := dirPath ++ ["package.json"]
  if fs.existsSync pkgPath = false then .ok res
  else
    match fs.readFile pkgPath with
    | none =>
        .ok ⟨res.plugins, res.skipped ++ [⟨dirPath, "Could not read package.json"⟩]⟩
    | some .unparsable =>
        .ok ⟨res.plugins, res.skipped ++ [⟨dirPath, "Invalid JSON in package.json"⟩]⟩
    | some (.json pkg) =>
        match jGetOrThrow pkg "junctionrelay" with
        | .error e => .error e
        | .ok none => .ok res
        | .ok (some jr) =>
            if truthyObject jr = false then .ok res
            else if isStrLit (jGet jr "type") "element" = false then .ok res
            else
              let errors := validateElementManifest jr
              if errors.isEmpty = false then
                .ok ⟨res.plugins, res.skipped ++ [⟨dirPath, joinWith "; " errors⟩]⟩
              else if res.plugins.any
                  (fun p => jsStrictEq (jGet p.manifest "elementType")
                    (jGet jr "elementType")) then
                .ok ⟨res.plugins, res.skipped ++ [⟨dirPath, dupReason jr⟩]⟩
              else
                .ok ⟨res.plugins ++ [mkDiscovered dirPath pkg jr], res.skipped⟩

/-- Process a list of candidate directories in order with `tryLoadPlugin`
(the body of each enumeration loop in `discoverPlugins`). -/
def processList (fs : FS) : List FsPath → DiscoveryResult → Except Unit DiscoveryResult
  | [], res => .ok res
  | d :: ds, res =>
      match tryLoadPlugin fs d res with
      | .ok res' => processList fs ds res'
      | .error e => .error e

/-- `discoverPlugins` from `discovery.ts`: scan the three location classes in
order — direct subdirectories of the root (skipping `node_modules`), then
`node_modules/@junctionrelay/element-*`, then
`node_modules/junctionrelay-element-*` — processing each candidate with
`tryLoadPlugin`.  The root is taken already resolved. -/
def discoverPlugins (fs : FS) (root : FsPath) : Except Unit DiscoveryResult :=
  let st : DiscoveryResult := ⟨[], []⟩
  let step1 :=
    if fs.existsSync root then
      processList fs
        (((safeReaddir fs root).filter (fun e => e ≠ "node_modules")).map
          (fun e => root ++ [e])) st
    else .ok st
  match step1 with
  | .error e => .error e
  | .ok st =>
    let scopedDir := root ++ ["node_modules", "@junctionrelay"]
    let step2 :=
      if fs.existsSync scopedDir then
        processList fs
          (((safeReaddir fs scopedDir).filter (fun e => strStartsWith e "element-")).map
            (fun e => scopedDir ++ [e])) st
      else .ok st
    match step2 with
    | .error e => .error e
    | .ok st =>
      let nmDir := root ++ ["node_modules"]
      if fs.existsSync nmDir then
        processList fs
          (((safeReaddir fs nmDir).filter
              (fun e => strStartsWith e "junctionrelay-element-")).map
            (fun e => nmDir ++ [e])) st
      else .ok st

/-- The full candidate list of one scan, in location-then-enumeration order
(derived view of the three loops of `discoverPlugins`). -/
def candidates (fs : FS) (root : FsPath) : List FsPath :=
  (if fs.existsSync root then
     ((safeReaddir fs root).filter (fun e => e ≠ "node_modules")).map
       (fun e => root ++ [e])
   else []) ++
  ((if fs.existsSync (root ++ ["node_modules", "@junctionrelay"]) then
      ((safeReaddir fs (root ++ ["node_modules", "@junctionrelay"])).filter
         (fun e => strStartsWith e "element-")).map
        (fun e => root ++ ["node_modules", "@junctionrelay"] ++ [e])
    else []) ++
   (if fs.existsSync (root ++ ["node_modules"]) then
      ((safeReaddir fs (root ++ ["node_modules"])).filter
         (fun e => strStartsWith e "junctionrelay-element-")).map
        (fun e => root ++ ["node_modules"] ++ [e])
    else []))

-- ---------------------------------------------------------------------------
-- packages/host/src/registry.ts
-- ---------------------------------------------------------------------------

/-- Distribution tier of a registry entry (`PluginTier`). -/
inductive PluginTier where
  | official : PluginTier
  | community : PluginTier
  deriving DecidableEq

/-- `PluginElementDefinition` as populated by `createRegistry`/`build`: the
optional `Renderer`/`PropertiesPanel`/`error` fields are written only by the
out-of-scope Phase-3 loader and are still `undefined` here, so they are
omitted from the record. -/
structure PluginElementDefinition where
  manifest : JValue
  name : JValue
  version : JValue
  tier : PluginTier
  loaded : Bool
  deriving DecidableEq

/-- The registry's backing `Map<string, PluginElementDefinition>`, modelled in
insertion order; the key is the JS value `plugin.manifest.elementType`
(`none` would be `undefined`, which validation makes unreachable). -/
abbrev RegMap := List (Option JValue × PluginElementDefinition)

/-- `Map.prototype.set`: overwrite in place if the key is present (keeping its
insertion position), else append. -/
def mapSet (m : RegMap) (k : Option JValue) (v : PluginElementDefinition) : RegMap :=
  if m.any (fun e => decide (e.1 = k)) then
    m.map (fun e => if e.1 = k then (k, v) else e)
  else m ++ [(k, v)]

/-- `Map.prototype.get`. -/
def mapGet (m : RegMap) (k : Option JValue) : Option PluginElementDefinition :=
  (m.find? (fun e => decide (e.1 = k))).map (fun e => e.2)

/-- `Set<string>.has(v)` where `v` is an arbitrary JS value (`plugin.name`):
true iff `v` is a string belonging to the configured list. -/
def officialHas (officialPackages : List String) (v : JValue) : Bool :=
  match v with
  | .str s => officialPackages.contains s
  | _ => false

/-- `RegistryOptions` (the `elementsDir` is passed separately as the scan
root).  The observer callbacks are modelled by their only relevant effect:
returning normally or throwing (`Except.error`); an absent callback is the
never-throwing `fun _ => .ok ()` (optional chaining `onPluginFound?.()`). -/
structure RegistryOptions where
  officialPackages : List String
  onPluginFound : DiscoveredElementPlugin → Except Unit Unit
  onPluginSkipped : FsPath → String → Except Unit Unit

/-- The definition built for one discovered plugin inside `build`: tier is
`official` iff the package name is in the configured official set, and
`loaded` starts `false`. -/
def mkDefinition (officialPackages : List String) (p : DiscoveredElementPlugin) :
    PluginElementDefinition :=
  { manifest := p.manifest,
    name := p.name,
    version := p.version,
    tier := if officialHas officialPackages p.name then .official else .community,
    loaded := false }

/-- The plugin loop of `build`: insert each discovered plugin into the new
map keyed by `plugin.manifest.elementType`, then invoke `onPluginFound`
(whose throw propagates). -/
def buildPluginsLoop (opts : RegistryOptions) :
    List DiscoveredElementPlugin → RegMap → Except Unit RegMap
  | [], m => .ok m
  | p :: ps, m =>
      let m' := mapSet m (jGet p.manifest "elementType")
                  (mkDefinition opts.officialPackages p)
      match opts.onPluginFound p with
      | .ok _ => buildPluginsLoop opts ps m'
      | .error e => .error e

/-- The skipped loop of `build`: invoke `onPluginSkipped` per skipped entry. -/
def buildSkippedLoop (opts : RegistryOptions) :
    List SkippedEntry → RegMap → Except Unit RegMap
  | [], m => .ok m
  | e :: es, m =>
      match opts.onPluginSkipped e.path e.reason with
      | .ok _ => buildSkippedLoop opts es m
      | .error x => .error x

/-- `build` from `registry.ts`: run the discoverer, fill a brand-new map, run
the observers, and only then hand the new map back (the source's final
`registry = newRegistry` swap).  Any exception leaves the old map in place
at the caller. -/
def build (fs : FS) (root : FsPath) (opts : RegistryOptions) : Except Unit RegMap :=
  match discoverPlugins fs root with
  | .error e => .error e
  | .ok result =>
      match buildPluginsLoop opts result.plugins [] with
      | .error e => .error e
      | .ok m => buildSkippedLoop opts result.skipped m

/-- `createRegistry`: the construction-time synchronous build; its value is
the initial backing map (an exception during the build propagates and no
registry is produced). -/
def createRegistry (fs : FS) (root : FsPath) (opts : RegistryOptions) :
    Except Unit RegMap :=
  build fs root opts

/-- `refresh()`: rebuild and swap the new map in only when the build ran to
completion; on a throw the old map stays and the exception propagates. -/
def refresh (fs : FS) (root : FsPath) (opts : RegistryOptions) (reg : RegMap) :
    RegMap × Except Unit Unit :=
  match build fs root opts with
  | .ok m => (m, .ok ())
  | .error e => (reg, .error e)

/-- `registry.get(elementType)`: lookup under a caller-supplied string key. -/
def regGet (reg : RegMap) (elementType : String) : Option PluginElementDefinition :=
  mapGet reg (some (.str elementType))

/-- `registry.has(elementType)`. -/
def regHas (reg : RegMap) (elementType : String) : Bool :=
  (regGet reg elementType).isSome

/-- `registry.getAll()`: values in map iteration (= insertion) order. -/
def regGetAll (reg : RegMap) : List PluginElementDefinition :=
  reg.map (fun e => e.2)

/-- `registry.getElementTypes()`: keys in map iteration (= insertion) order. -/
def regElementTypes (reg : RegMap) : List (Option JValue) :=
  reg.map (fun e => e.1)

/-- `registry.size`. -/
def regSize (reg : RegMap) : Nat :=
  reg.length

-- ---------------------------------------------------------------------------
-- Concrete filesystem instances (test harness for witnesses, mirroring the
-- repository's test helper that writes plugin directories under a tmp root)
-- ---------------------------------------------------------------------------

/-- The names of the immediate children of `p` among `paths`. -/
def childNames (p : FsPath) (paths : List FsPath) : List String :=
  (paths.filterMap
    (fun q =>
      if q.length = p.length + 1 && decide (q.take p.length = p) then q.getLast?
      else none)).dedup

/-- A concrete filesystem holding the given directories and files. -/
def mkFS (dirs : List FsPath) (files : List (FsPath × FileData)) : FS :=
  { existsSync := fun p =>
      dirs.contains p || files.any (fun f => decide (f.1 = p)),
    isDirectory := fun p => dirs.contains p,
    readdir := fun p =>
      if dirs.contains p then
        some (childNames p (dirs ++ files.map (fun f => f.1)))
      else none,
    readFile := fun p =>
      (files.find? (fun f => decide (f.1 = p))).map (fun f => f.2) }

/-- Build a `JFields` spine from a Lean association list. -/
def JFields.ofList : List (String × JValue) → JFields
  | [] => .nil
  | (k, v) :: t => .cons k v (JFields.ofList t)

/-- JSON object literal helper. -/
def jobj (l : List (String × JValue)) : JValue :=
  .obj (JFields.ofList l)

/-- Build a `JList` spine from a Lean list. -/
def JList.ofList : List JValue → JList
  | [] => .nil
  | v :: t => .cons v (JList.ofList t)

/-- JSON array literal helper. -/
def jarr (l : List JValue) : JValue :=
  .arr (JList.ofList l)

/-- A manifest the inline validator of `discovery.ts` accepts (it requires
`sensorTagCompatible`). -/
def manifestOk (elementType : String) : JValue :=
  jobj [("type", .str "element"),
        ("entry", .str "dist/index.js"),
        ("elementType", .str elementType),
        ("displayName", .str "Stock Ticker"),
        ("description", .str "Shows stock prices"),
        ("category", .str "Data"),
        ("icon", .str "TrendingUp"),
        ("sensorTagCompatible", .bool true),
        ("defaultSize", jobj [("width", .num 300), ("height", .num 80)]),
        ("defaultProperties", jobj [("sensorTag", .str "")])]

/-- A full package descriptor around a manifest. -/
def pkgAround (name version : String) (manifest : JValue) : JValue :=
  jobj [("name", .str name), ("version", .str version), ("junctionrelay", manifest)]

example :
    discoverPlugins
      (mkFS [["elements"], ["elements", "t"]]
        [(["elements", "t", "package.json"],
          .json (pkgAround "t" "1.0.0" (manifestOk "gauge-x")))])
      ["elements"]
    = Except.ok
        ⟨[{ name := .str "t", version := .str "1.0.0",
            path := ["elements", "t"], entry := some (.str "dist/index.js"),
            manifest := manifestOk "gauge-x" }], []⟩ := by
  rfl

-- ---------------------------------------------------------------------------
-- C4, C8, C9, C10
-- ---------------------------------------------------------------------------

/-- C4: for every input value, `validateManifest` returns a result whose
`valid` is true iff its `errors` list is empty; and every input that is not a
non-null object (in the JS sense: `null`, booleans, numbers, strings — arrays
have `typeof === "object"` and pass the guard) short-circuits to `valid =
false` with exactly the one generic error message. -/
theorem validateManifest_valid_iff_errors_empty :
    ∀ v : JValue,
      ((validateManifest v).valid = true ↔ (validateManifest v).errors = []) ∧
      (truthyObject v = false →
        validateManifest v = ⟨false, ["manifest must be an object"]⟩) := by
  intro v
  cases v with
  | arr xs =>
      refine ⟨?_, by intro h; simp [truthyObject] at h⟩
      simp [validateManifest, List.isEmpty_iff]
  | obj fields =>
      refine ⟨?_, by intro h; simp [truthyObject] at h⟩
      simp [validateManifest, List.isEmpty_iff]
  | null => exact ⟨by simp [validateManifest], fun _ => rfl⟩
  | bool b => exact ⟨by simp [validateManifest], fun _ => rfl⟩
  | num n => exact ⟨by simp [validateManifest], fun _ => rfl⟩
  | str s => exact ⟨by simp [validateManifest], fun _ => rfl⟩

/-- Witness for C4 at the concrete non-object input `3`: the iff holds there
and, since `3` fails the non-null-object test, the result is the single
generic error. -/
theorem validateManifest_valid_iff_errors_empty_witness :
    ((validateManifest (.num 3)).valid = true ↔ (validateManifest (.num 3)).errors = []) ∧
    validateManifest (.num 3) = ⟨false, ["manifest must be an object"]⟩ :=
  ⟨(validateManifest_valid_iff_errors_empty (.num 3)).1,
   (validateManifest_valid_iff_errors_empty (.num 3)).2 rfl⟩

/-- C8: refreshing twice against the same filesystem yields the same map both
times (the build is a pure function of the filesystem and options, and even a
failing build leaves the same previous map twice), hence identical
`getAll()` and `getElementTypes()` output after each call. -/
theorem refresh_twice_same_output (fs : FS) (root : FsPath) (opts : RegistryOptions)
    (reg : RegMap) :
    regGetAll ((refresh fs root opts ((refresh fs root opts reg).1)).1)
      = regGetAll ((refresh fs root opts reg).1) ∧
    regElementTypes ((refresh fs root opts ((refresh fs root opts reg).1)).1)
      = regElementTypes ((refresh fs root opts reg).1) := by
  unfold refresh
  cases h : build fs root opts <;> simp

/-- The exact scenario of C9: one subfolder whose descriptor carries the
spec's manifest (with `sensorBound: false`). -/
def manifestSensorBound : JValue :=
  jobj [("type", .str "element"),
        ("entry", .str "dist/index.js"),
        ("elementType", .str "gauge-x"),
        ("displayName", .str "Gauge X"),
        ("description", .str "d"),
        ("category", .str "Data"),
        ("icon", .str "Star"),
        ("sensorBound", .bool false),
        ("defaultSize", jobj [("width", .num 200), ("height", .num 100)]),
        ("defaultProperties", jobj [])]

/-- The filesystem of the C9 scenario. -/
def c9fs : FS :=
  mkFS [["elements"], ["elements", "plugin"]]
    [(["elements", "plugin", "package.json"],
      .json (pkgAround "t" "1.0.0" manifestSensorBound))]

/-- C9 (evaluation at the failing input): on the spec's scenario descriptor —
`sensorBound: false` and the claimed outcome of one plugin and no skips — the
code instead returns zero plugins and one skip, because the inline validator
of `discovery.ts` demands a boolean `sensorTagCompatible` field.  This
contradicts the repository's own tests (`discovery.test.ts` and
`registry.test.ts` build their fixtures with `sensorBound` and expect them to
be discovered) and the SDK validator, which checks `sensorBound`. -/
theorem discover_sensorBound_scenario :
    discoverPlugins c9fs ["elements"]
      = Except.ok ⟨[], [⟨["elements", "plugin"], "missing sensorTagCompatible"⟩]⟩ := by
  rfl

/-- C10 helper fixture: a filesystem with one valid plugin, so the
construction/refresh build reaches the `onPluginFound` observer. -/
def fsOnePlugin : FS :=
  mkFS [["r"], ["r", "a"]]
    [(["r", "a", "package.json"],
      .json (pkgAround "pkg-a" "1.0.0" (manifestOk "el-a")))]

/-- C10 helper fixture: options whose `onPluginFound` observer throws. -/
def throwingOpts : RegistryOptions :=
  { officialPackages := [],
    onPluginFound := fun _ => .error (),
    onPluginSkipped := fun _ _ => .ok () }

/-- C10 helper fixture: a non-empty previous registry map. -/
def oldMap : RegMap :=
  [(some (.str "old"),
    { manifest := .null, name := .null, version := .null,
      tier := .community, loaded := false })]

/-- C10: when any part of a build throws (in particular a throwing
`onPluginFound`/`onPluginSkipped` observer), the exception propagates —
`refresh` reports it and a construction-time build produces no registry —
while the previous map stays in place unchanged: every reader
(`get`/`has`/`getAll`/`getElementTypes`/`size`) still sees the complete
pre-build map, never a partially built one, because the new map is swapped in
only after the loops complete. -/
theorem refresh_throwing_observer_keeps_map (fs : FS) (root : FsPath)
    (opts : RegistryOptions) (reg : RegMap)
    (h : build fs root opts = .error ()) :
    refresh fs root opts reg = (reg, .error ()) ∧
    createRegistry fs root opts = .error () ∧
    (∀ t, regGet ((refresh fs root opts reg).1) t = regGet reg t) ∧
    (∀ t, regHas ((refresh fs root opts reg).1) t = regHas reg t) ∧
    regGetAll ((refresh fs root opts reg).1) = regGetAll reg ∧
    regElementTypes ((refresh fs root opts reg).1) = regElementTypes reg ∧
    regSize ((refresh fs root opts reg).1) = regSize reg := by
  unfold refresh createRegistry
  rw [h]
  exact ⟨rfl, rfl, fun _ => rfl, fun _ => rfl, rfl, rfl, rfl⟩

/-- Witness for C10: with the concrete one-plugin filesystem and a throwing
`onPluginFound`, the refresh raises and hands back the old map unchanged. -/
theorem refresh_throwing_observer_keeps_map_witness :
    refresh fsOnePlugin ["r"] throwingOpts oldMap = (oldMap, .error ()) :=
  (refresh_throwing_observer_keeps_map fsOnePlugin ["r"] throwingOpts oldMap rfl).1

-- ---------------------------------------------------------------------------
-- Behaviour lemmas for tryLoadPlugin / processList, and C5, C6, C7
-- ---------------------------------------------------------------------------

theorem tryLoadPlugin_ok_exists (fs : FS) (dirPath : FsPath) (res : DiscoveryResult)
    (h : fs.readFile (dirPath ++ ["package.json"]) ≠ some (.json .null)) :
    ∃ res', tryLoadPlugin fs dirPath res = .ok res' := by
  unfold tryLoadPlugin
  dsimp only
  repeat' split
  all_goals try exact ⟨_, rfl⟩
  all_goals simp_all [jGetOrThrow_of_ne_null]

theorem processList_ok_exists (fs : FS) (ds : List FsPath) (res : DiscoveryResult)
    (h : ∀ d ∈ ds, fs.readFile (d ++ ["package.json"]) ≠ some (.json .null)) :
    ∃ res', processList fs ds res = .ok res' := by
  induction ds generalizing res with
  | nil => exact ⟨res, rfl⟩
  | cons d ds ih =>
      obtain ⟨res1, h1⟩ :=
        tryLoadPlugin_ok_exists fs d res (h d (List.mem_cons_self d ds))
      obtain ⟨res2, h2⟩ := ih res1 (fun x hx => h x (List.mem_cons_of_mem d hx))
      exact ⟨res2, by simpa [processList, h1] using h2⟩

/-- C5 (counterexample): the claim "discoverPlugins never throws, for any
root path and filesystem state" fails at this concrete state — a candidate
whose `package.json` contains the valid JSON text `null`.  `JSON.parse`
succeeds, and the subsequent property access `pkg.junctionrelay` is a
TypeError outside every `try` block, so the whole scan throws. -/
def c5fs : FS :=
  mkFS [["r"], ["r", "p"]] [(["r", "p", "package.json"], .json .null)]

/-- C5 (counterexample theorem): the scan over `c5fs` throws instead of
returning a `DiscoveryResult`. -/
theorem discover_null_descriptor_throws :
    discoverPlugins c5fs ["r"] = Except.error () := by
  rfl

/-- C5 (amended): provided no package descriptor file parses to JSON `null`,
`discoverPlugins` never throws, and (for a filesystem in which children of a
non-existent directory do not exist) a non-existent root yields the empty
result.  Unreadable directories are already absorbed by `safeReaddir`, and
unreadable descriptor files by the local catch. -/
theorem discoverPlugins_total (fs : FS) (root : FsPath)
    (hnull : ∀ p, fs.readFile p ≠ some (.json .null))
    (hchild : ∀ p e, fs.existsSync p = false → fs.existsSync (p ++ [e]) = false) :
    (∃ res, discoverPlugins fs root = .ok res) ∧
    (fs.existsSync root = false → discoverPlugins fs root = .ok ⟨[], []⟩) := by
  constructor
  · unfold discoverPlugins
    dsimp only
    have e1 : ∃ st1,
        (if fs.existsSync root then
           processList fs
             (((safeReaddir fs root).filter (fun e => e ≠ "node_modules")).map
               (fun e => root ++ [e])) ⟨[], []⟩
         else .ok ⟨[], []⟩) = .ok st1 := by
      by_cases hex : fs.existsSync root
      · simp only [hex, if_true]
        exact processList_ok_exists _ _ _ (fun d _ => hnull _)
      · exact ⟨⟨[], []⟩, by simp [hex]⟩
    obtain ⟨st1, h1⟩ := e1
    rw [h1]
    dsimp only
    have e2 : ∃ st2,
        (if fs.existsSync (root ++ ["node_modules", "@junctionrelay"]) then
           processList fs
             (((safeReaddir fs (root ++ ["node_modules", "@junctionrelay"])).filter
                 (fun e => strStartsWith e "element-")).map
               (fun e => root ++ ["node_modules", "@junctionrelay"] ++ [e])) st1
         else .ok st1) = .ok st2 := by
      by_cases hex : fs.existsSync (root ++ ["node_modules", "@junctionrelay"])
      · simp only [hex, if_true]
        exact processList_ok_exists _ _ _ (fun d _ => hnull _)
      · exact ⟨st1, by simp [hex]⟩
    obtain ⟨st2, h2⟩ := e2
    rw [h2]
    dsimp only
    by_cases hex : fs.existsSync (root ++ ["node_modules"])
    · simp only [hex, if_true]
      exact processList_ok_exists _ _ _ (fun d _ => hnull _)
    · exact ⟨st2, by simp [hex]⟩
  · intro hex
    have h2 : fs.existsSync (root ++ ["node_modules"]) = false :=
      hchild root "node_modules" hex
    have h3 : fs.existsSync (root ++ ["node_modules", "@junctionrelay"]) = false := by
      have := hchild (root ++ ["node_modules"]) "@junctionrelay" h2
      simpa [List.append_assoc] using this
    simp [discoverPlugins, hex, h2, h3]

/-- Witness for C5 (amended) at the empty filesystem: the hypotheses hold
concretely and the scan returns the empty result. -/
theorem discoverPlugins_total_witness :
    discoverPlugins (mkFS [] []) ["r"] = .ok ⟨[], []⟩ :=
  (discoverPlugins_total (mkFS [] []) ["r"]
    (fun p => by simp [mkFS])
    (fun p e _ => by simp [mkFS])).2 rfl

/-- C6: a candidate directory with no `package.json`, or whose (non-null)
parsed descriptor lacks the `junctionrelay` field or carries a non-object
one (`undefined`, `null`, or a primitive — all failing the
truthy-and-`typeof === "object"` guard), or whose discriminator is not the
string `"element"`, contributes neither a plugin nor a skipped entry: the
accumulated result is returned unchanged, and the remaining candidates of
the scan are processed exactly as if this one were absent.  (A descriptor
that parses to JSON `null` is excluded: there the field access itself throws
— see the C5 analysis.) -/
theorem tryLoadPlugin_silent_skip (fs : FS) (dirPath : FsPath) (res : DiscoveryResult)
    (h : fs.existsSync (dirPath ++ ["package.json"]) = false
      ∨ ∃ pkg, fs.readFile (dirPath ++ ["package.json"]) = some (.json pkg) ∧
          pkg ≠ JValue.null ∧
          (jGet pkg "junctionrelay" = none
           ∨ ∃ jr, jGet pkg "junctionrelay" = some jr ∧
               (truthyObject jr = false
                ∨ isStrLit (jGet jr "type") "element" = false))) :
    tryLoadPlugin fs dirPath res = .ok res ∧
    ∀ rest, processList fs (dirPath :: rest) res = processList fs rest res := by
  have main : tryLoadPlugin fs dirPath res = .ok res := by
    unfold tryLoadPlugin
    dsimp only
    rcases h with hex | ⟨pkg, hread, hne, hfield⟩
    · simp [hex]
    · by_cases hex : fs.existsSync (dirPath ++ ["package.json"]) = false
      · simp [hex]
      · rw [if_neg hex, hread]
        dsimp only
        rw [jGetOrThrow_of_ne_null pkg "junctionrelay" hne]
        rcases hfield with hnone | ⟨jr, hjr, hbad⟩
        · rw [hnone]
        · rw [hjr]
          dsimp only
          rcases hbad with hb | hb
          · simp [hb]
          · by_cases ht : truthyObject jr = false
            · simp [ht]
            · simp [ht, hb]
  refine ⟨main, fun rest => ?_⟩
  simp [processList, main]

/-- Witness for C6: a concrete candidate declaring a different plugin kind
(`type: "collector"`) is silently ignored. -/
theorem tryLoadPlugin_silent_skip_witness :
    tryLoadPlugin
      (mkFS [["r"], ["r", "c"]]
        [(["r", "c", "package.json"],
          .json (jobj [("name", .str "c"),
                       ("junctionrelay",
                        jobj [("type", .str "collector"),
                              ("entry", .str "dist/index.js")])]))])
      ["r", "c"] ⟨[], []⟩ = .ok ⟨[], []⟩ :=
  (tryLoadPlugin_silent_skip _ ["r", "c"] ⟨[], []⟩
    (Or.inr ⟨jobj [("name", .str "c"),
                   ("junctionrelay",
                    jobj [("type", .str "collector"),
                          ("entry", .str "dist/index.js")])],
      rfl, by decide,
      Or.inr ⟨jobj [("type", .str "collector"), ("entry", .str "dist/index.js")],
        rfl, Or.inr rfl⟩⟩)).1

/-- C7: a candidate whose `package.json` exists but holds unparsable text
produces exactly one skipped entry, whose reason mentions "Invalid JSON";
the candidate's processing returns normally (no throw), and the rest of the
scan proceeds from the state with just that one skip appended. -/
theorem tryLoadPlugin_invalid_json (fs : FS) (dirPath : FsPath) (res : DiscoveryResult)
    (hex : fs.existsSync (dirPath ++ ["package.json"]) = true)
    (hread : fs.readFile (dirPath ++ ["package.json"]) = some .unparsable) :
    tryLoadPlugin fs dirPath res
      = .ok ⟨res.plugins,
             res.skipped ++ [⟨dirPath, "Invalid JSON in package.json"⟩]⟩ ∧
    strMentions "Invalid JSON in package.json" "Invalid JSON" = true ∧
    ∀ rest, processList fs (dirPath :: rest) res
      = processList fs rest
          ⟨res.plugins, res.skipped ++ [⟨dirPath, "Invalid JSON in package.json"⟩]⟩ := by
  have main : tryLoadPlugin fs dirPath res
      = .ok ⟨res.plugins,
             res.skipped ++ [⟨dirPath, "Invalid JSON in package.json"⟩]⟩ := by
    unfold tryLoadPlugin
    dsimp only
    rw [if_neg (by simp [hex]), hread]
  exact ⟨main, by decide, fun rest => by simp [processList, main]⟩

/-- Witness for C7: a concrete candidate with an unparsable descriptor is
processed into exactly one "Invalid JSON" skip, without a throw. -/
theorem tryLoadPlugin_invalid_json_witness :
    tryLoadPlugin
      (mkFS [["r"], ["r", "bad"]] [(["r", "bad", "package.json"], .unparsable)])
      ["r", "bad"] ⟨[], []⟩
      = .ok ⟨[], [⟨["r", "bad"], "Invalid JSON in package.json"⟩]⟩ :=
  (tryLoadPlugin_invalid_json
    (mkFS [["r"], ["r", "bad"]] [(["r", "bad", "package.json"], .unparsable)])
    ["r", "bad"] ⟨[], []⟩ rfl rfl).1

-- ---------------------------------------------------------------------------
-- Valid candidates, scan decomposition (towards C2, C3, C1)
-- ---------------------------------------------------------------------------

/-- A candidate directory that `tryLoadPlugin` accepts up to the duplicate
check: descriptor present and parsed to `pkg`, `junctionrelay` field equal to
`jr`, a truthy object with discriminator `"element"`, and no inline
validation errors. -/
def IsValidCandidate (fs : FS) (dirPath : FsPath) (pkg jr : JValue) : Prop :=
  fs.existsSync (dirPath ++ ["package.json"]) = true ∧
  fs.readFile (dirPath ++ ["package.json"]) = some (.json pkg) ∧
  jGet pkg "junctionrelay" = some jr ∧
  truthyObject jr = true ∧
  isStrLit (jGet jr "type") "element" = true ∧
  validateElementManifest jr = []

theorem tryLoadPlugin_valid (fs : FS) (dirPath : FsPath) (res : DiscoveryResult)
    (pkg jr : JValue) (hc : IsValidCandidate fs dirPath pkg jr) :
    tryLoadPlugin fs dirPath res =
      if (res.plugins.any (fun p => jsStrictEq (jGet p.manifest "elementType")
            (jGet jr "elementType"))) = true then
        .ok ⟨res.plugins, res.skipped ++ [⟨dirPath, dupReason jr⟩]⟩
      else
        .ok ⟨res.plugins ++ [mkDiscovered dirPath pkg jr], res.skipped⟩ := by
  obtain ⟨hex, hread, hjr, ht, htyp, hvem⟩ := hc
  have hne : pkg ≠ JValue.null := by
    intro h
    subst h
    simp [jGet] at hjr
  unfold tryLoadPlugin
  dsimp only
  rw [if_neg (by simp [hex]), hread]
  dsimp only
  rw [jGetOrThrow_of_ne_null pkg "junctionrelay" hne, hjr]
  dsimp only
  rw [if_neg (by simp [ht]), if_neg (by simp [htyp]), hvem]
  simp

theorem tryLoadPlugin_valid_fresh (fs : FS) (dirPath : FsPath) (res : DiscoveryResult)
    (pkg jr : JValue) (hc : IsValidCandidate fs dirPath pkg jr)
    (hdup : (res.plugins.any (fun p => jsStrictEq (jGet p.manifest "elementType")
      (jGet jr "elementType"))) = false) :
    tryLoadPlugin fs dirPath res
      = .ok ⟨res.plugins ++ [mkDiscovered dirPath pkg jr], res.skipped⟩ := by
  rw [tryLoadPlugin_valid fs dirPath res pkg jr hc]
  simp [hdup]

theorem tryLoadPlugin_valid_dup (fs : FS) (dirPath : FsPath) (res : DiscoveryResult)
    (pkg jr : JValue) (hc : IsValidCandidate fs dirPath pkg jr)
    (hdup : (res.plugins.any (fun p => jsStrictEq (jGet p.manifest "elementType")
      (jGet jr "elementType"))) = true) :
    tryLoadPlugin fs dirPath res
      = .ok ⟨res.plugins, res.skipped ++ [⟨dirPath, dupReason jr⟩]⟩ := by
  rw [tryLoadPlugin_valid fs dirPath res pkg jr hc]
  simp [hdup]

theorem processList_append_eq (fs : FS) (as bs : List FsPath) (res : DiscoveryResult) :
    processList fs (as ++ bs) res =
      match processList fs as res with
      | .ok r => processList fs bs r
      | .error e => .error e := by
  induction as generalizing res with
  | nil => simp [processList]
  | cons a as ih =>
      show processList fs (a :: (as ++ bs)) res = _
      simp only [processList]
      cases tryLoadPlugin fs a res with
      | error e => rfl
      | ok r => exact ih r

theorem processList_if_eq (fs : FS) (c : Prop) [Decidable c] (l : List FsPath)
    (st : DiscoveryResult) :
    (if c then processList fs l st else .ok st)
      = processList fs (if c then l else []) st := by
  by_cases h : c <;> simp [h, processList]

theorem discoverPlugins_eq_processList (fs : FS) (root : FsPath) :
    discoverPlugins fs root = processList fs (candidates fs root) ⟨[], []⟩ := by
  unfold discoverPlugins candidates
  dsimp only
  rw [processList_if_eq, processList_append_eq]
  cases hA : processList fs
      (if fs.existsSync root = true then
        ((safeReaddir fs root).filter (fun e => e ≠ "node_modules")).map
          (fun e => root ++ [e])
      else []) ⟨[], []⟩ with
  | error e => rfl
  | ok st =>
      dsimp only
      rw [processList_if_eq, processList_append_eq]
      cases hB : processList fs
          (if fs.existsSync (root ++ ["node_modules", "@junctionrelay"]) = true then
            ((safeReaddir fs (root ++ ["node_modules", "@junctionrelay"])).filter
                (fun e => strStartsWith e "element-")).map
              (fun e => root ++ ["node_modules", "@junctionrelay"] ++ [e])
          else []) st with
      | error e => rfl
      | ok st2 =>
          dsimp only
          rw [processList_if_eq]

theorem listStartsWith_append_of (a b p : List Char)
    (h : listStartsWith a p = true) : listStartsWith (a ++ b) p = true := by
  induction p generalizing a with
  | nil => cases hab : a ++ b <;> simp [listStartsWith]
  | cons q qs ih =>
      cases a with
      | nil => simp [listStartsWith] at h
      | cons c t =>
          simp only [listStartsWith, Bool.and_eq_true] at h ⊢
          exact ⟨h.1, ih t h.2⟩

theorem strData_append (a b : String) : (a ++ b).data = a.data ++ b.data := by
  rcases a with ⟨as⟩
  rcases b with ⟨bs⟩
  rfl

theorem strMentions_of_startsWith (hay pat : String)
    (h : listStartsWith hay.data pat.data = true) : strMentions hay pat = true := by
  unfold strMentions
  cases hd : hay.data with
  | nil =>
      rw [hd] at h
      cases hp : pat.data with
      | nil => simp [listHasRun, hp, List.isEmpty]
      | cons c t => rw [hp] at h; simp [listStartsWith] at h
  | cons c t =>
      rw [hd] at h
      simp [listHasRun, h]

theorem strMentions_dupReason (jr : JValue) :
    strMentions (dupReason jr) "Duplicate" = true := by
  apply strMentions_of_startsWith
  unfold dupReason
  rw [strData_append, strData_append]
  apply listStartsWith_append_of
  apply listStartsWith_append_of
  decide

/-- C2: when a single scan has exactly two candidates, both valid, declaring
the same element identifier, the result is exactly one plugin — built from
the first candidate in location-then-enumeration order — and exactly one
skipped entry, recorded at the second candidate's path, whose reason mentions
"Duplicate"; the later candidate is not added. -/
theorem discover_duplicate_suppression (fs : FS) (root : FsPath)
    (d1 d2 : FsPath) (pkg1 jr1 pkg2 jr2 : JValue)
    (hcand : candidates fs root = [d1, d2])
    (h1 : IsValidCandidate fs d1 pkg1 jr1)
    (h2 : IsValidCandidate fs d2 pkg2 jr2)
    (hsame : jsStrictEq (jGet jr1 "elementType") (jGet jr2 "elementType") = true) :
    discoverPlugins fs root
      = .ok ⟨[mkDiscovered d1 pkg1 jr1], [⟨d2, dupReason jr2⟩]⟩ ∧
    strMentions (dupReason jr2) "Duplicate" = true := by
  refine ⟨?_, strMentions_dupReason jr2⟩
  rw [discoverPlugins_eq_processList, hcand]
  have s1 : tryLoadPlugin fs d1 ⟨[], []⟩
      = .ok ⟨[mkDiscovered d1 pkg1 jr1], []⟩ := by
    have := tryLoadPlugin_valid_fresh fs d1 ⟨[], []⟩ pkg1 jr1 h1 (by simp)
    simpa using this
  have s2 : tryLoadPlugin fs d2 ⟨[mkDiscovered d1 pkg1 jr1], []⟩
      = .ok ⟨[mkDiscovered d1 pkg1 jr1], [⟨d2, dupReason jr2⟩]⟩ := by
    have := tryLoadPlugin_valid_dup fs d2 ⟨[mkDiscovered d1 pkg1 jr1], []⟩ pkg2 jr2 h2
      (by simp [mkDiscovered, hsame])
    simpa using this
  simp [processList, s1, s2]

/-- C2 witness fixture: two direct subdirectories, both valid, declaring the
same `elementType`. -/
def c2pkgA : JValue := pkgAround "a" "1.0.0" (manifestOk "same-type")

/-- C2 witness fixture: the second (losing) candidate's descriptor. -/
def c2pkgB : JValue := pkgAround "b" "1.0.0" (manifestOk "same-type")

/-- C2 witness fixture: the filesystem holding both candidates. -/
def c2fs : FS :=
  mkFS [["r"], ["r", "a"], ["r", "b"]]
    [(["r", "a", "package.json"], .json c2pkgA),
     (["r", "b", "package.json"], .json c2pkgB)]

/-- Witness for C2 at the concrete two-candidate filesystem. -/
theorem discover_duplicate_suppression_witness :
    discoverPlugins c2fs ["r"]
      = .ok ⟨[mkDiscovered ["r", "a"] c2pkgA (manifestOk "same-type")],
             [⟨["r", "b"], dupReason (manifestOk "same-type")⟩]⟩ :=
  (discover_duplicate_suppression c2fs ["r"] ["r", "a"] ["r", "b"]
    c2pkgA (manifestOk "same-type") c2pkgB (manifestOk "same-type")
    rfl
    ⟨rfl, rfl, rfl, rfl, rfl, rfl⟩
    ⟨rfl, rfl, rfl, rfl, rfl, rfl⟩
    rfl).1

-- ---------------------------------------------------------------------------
-- C3: completeness for distinct valid candidates
-- ---------------------------------------------------------------------------

/-- One valid candidate, as data: its directory, its parsed descriptor and
its `junctionrelay` manifest. -/
structure Cand where
  dir : FsPath
  pkg : JValue
  jr : JValue

/-- The element identifier a candidate declares. -/
def candKey (c : Cand) : Option JValue :=
  jGet c.jr "elementType"

/-- Pairwise distinctness (under JS `===`) of the declared identifiers. -/
def freshKeys : List Cand → Bool
  | [] => true
  | c :: t => t.all (fun y => !(jsStrictEq (candKey c) (candKey y))) && freshKeys t

theorem processList_all_valid (fs : FS) :
    ∀ (L : List Cand) (res : DiscoveryResult),
      (∀ c ∈ L, IsValidCandidate fs c.dir c.pkg c.jr) →
      freshKeys L = true →
      (∀ c ∈ L, ∀ p ∈ res.plugins,
        jsStrictEq (jGet p.manifest "elementType") (candKey c) = false) →
      processList fs (L.map (fun c => c.dir)) res
        = .ok ⟨res.plugins ++ L.map (fun c => mkDiscovered c.dir c.pkg c.jr),
               res.skipped⟩
  | [], res, _, _, _ => by simp [processList]
  | c :: L, res, hv, hf, hfresh => by
      have hdup : (res.plugins.any (fun p => jsStrictEq (jGet p.manifest "elementType")
          (jGet c.jr "elementType"))) = false := by
        rw [List.any_eq_false]
        intro p hp
        have := hfresh c (List.mem_cons_self c L) p hp
        simp [candKey] at this
        simp [this]
      have s1 := tryLoadPlugin_valid_fresh fs c.dir res c.pkg c.jr
        (hv c (List.mem_cons_self c L)) hdup
      have hfparts : (∀ y ∈ L, jsStrictEq (candKey c) (candKey y) = false)
          ∧ freshKeys L = true := by
        have := hf
        simp only [freshKeys, Bool.and_eq_true, List.all_eq_true] at this
        refine ⟨fun y hy => ?_, this.2⟩
        have h := this.1 y hy
        simpa using h
      have hv' : ∀ x ∈ L, IsValidCandidate fs x.dir x.pkg x.jr :=
        fun x hx => hv x (List.mem_cons_of_mem c hx)
      have hfresh' : ∀ x ∈ L, ∀ p ∈ res.plugins ++ [mkDiscovered c.dir c.pkg c.jr],
          jsStrictEq (jGet p.manifest "elementType") (candKey x) = false := by
        intro x hx p hp
        rcases List.mem_append.mp hp with hold | hnew
        · exact hfresh x (List.mem_cons_of_mem c hx) p hold
        · have hpc : p = mkDiscovered c.dir c.pkg c.jr := List.mem_singleton.mp hnew
          subst hpc
          have : jsStrictEq (candKey c) (candKey x) = false := hfparts.1 x hx
          simpa [mkDiscovered, candKey] using this
      have rec := processList_all_valid fs L
        ⟨res.plugins ++ [mkDiscovered c.dir c.pkg c.jr], res.skipped⟩
        hv' hfparts.2 hfresh'
      simp only [List.map_cons, processList, s1]
      rw [rec]
      simp

/-- C3: when the scan's candidate list consists of N valid candidates with
pairwise-distinct element identifiers — distributed in any way across the
three location classes, since `candidates` concatenates all three —
`discoverPlugins` returns exactly those N plugins (in scan order) and an
empty skipped list. -/
theorem discover_completeness (fs : FS) (root : FsPath) (L : List Cand)
    (hcand : candidates fs root = L.map (fun c => c.dir))
    (hv : ∀ c ∈ L, IsValidCandidate fs c.dir c.pkg c.jr)
    (hf : freshKeys L = true) :
    discoverPlugins fs root
      = .ok ⟨L.map (fun c => mkDiscovered c.dir c.pkg c.jr), []⟩ ∧
    ∃ res, discoverPlugins fs root = .ok res ∧
      res.plugins.length = L.length ∧ res.skipped = [] := by
  have main : discoverPlugins fs root
      = .ok ⟨L.map (fun c => mkDiscovered c.dir c.pkg c.jr), []⟩ := by
    rw [discoverPlugins_eq_processList, hcand]
    have := processList_all_valid fs L ⟨[], []⟩ hv hf
      (by intro c hc p hp; simp at hp)
    simpa using this
  exact ⟨main, _, main, by simp, rfl⟩

/-- C3 witness fixture: descriptor of the direct-subdirectory plugin. -/
def c3pkg1 : JValue := pkgAround "one" "1.0.0" (manifestOk "el-one")

/-- C3 witness fixture: descriptor of the scoped `node_modules` plugin. -/
def c3pkg2 : JValue := pkgAround "two" "1.0.0" (manifestOk "el-two")

/-- C3 witness fixture: descriptor of the unscoped `node_modules` plugin. -/
def c3pkg3 : JValue := pkgAround "three" "1.0.0" (manifestOk "el-three")

/-- C3 witness fixture: one valid plugin in each of the three locations. -/
def c3fs : FS :=
  mkFS [["r"], ["r", "one"], ["r", "node_modules"],
        ["r", "node_modules", "@junctionrelay"],
        ["r", "node_modules", "@junctionrelay", "element-two"],
        ["r", "node_modules", "junctionrelay-element-three"]]
    [(["r", "one", "package.json"], .json c3pkg1),
     (["r", "node_modules", "@junctionrelay", "element-two", "package.json"],
      .json c3pkg2),
     (["r", "node_modules", "junctionrelay-element-three", "package.json"],
      .json c3pkg3)]

/-- C3 witness fixture: the three candidates as data. -/
def c3cands : List Cand :=
  [⟨["r", "one"], c3pkg1, manifestOk "el-one"⟩,
   ⟨["r", "node_modules", "@junctionrelay", "element-two"], c3pkg2,
    manifestOk "el-two"⟩,
   ⟨["r", "node_modules", "junctionrelay-element-three"], c3pkg3,
    manifestOk "el-three"⟩]

/-- Witness for C3: the three-location filesystem yields exactly the three
plugins and no skips. -/
theorem discover_completeness_witness :
    discoverPlugins c3fs ["r"]
      = .ok ⟨c3cands.map (fun c => mkDiscovered c.dir c.pkg c.jr), []⟩ :=
  (discover_completeness c3fs ["r"] c3cands rfl
    (by
      intro c hc
      simp only [c3cands, List.mem_cons, List.not_mem_nil, or_false] at hc
      rcases hc with rfl | rfl | rfl <;> exact ⟨rfl, rfl, rfl, rfl, rfl, rfl⟩)
    rfl).1

-- ---------------------------------------------------------------------------
-- C1: discovery-output invariants and registry build characterization
-- ---------------------------------------------------------------------------

/-- The registry key a discovered plugin is stored under
(`plugin.manifest.elementType`). -/
def pluginKey (p : DiscoveredElementPlugin) : Option JValue :=
  jGet p.manifest "elementType"

/-- Invariant of accumulated discovery output: every plugin's key is a string
and keys are pairwise distinct. -/
def GoodPlugins (l : List DiscoveredElementPlugin) : Prop :=
  (∀ p ∈ l, ∃ s, pluginKey p = some (.str s)) ∧
  l.Pairwise (fun p q => pluginKey p ≠ pluginKey q)

theorem elementTypeOk_of_vem_nil (m : JValue)
    (h : validateElementManifest m = []) : elementTypeOkAt m = true := by
  by_contra hne
  rw [Bool.not_eq_true] at hne
  simp [validateElementManifest, hne] at h

theorem key_str_of_vem_nil (m : JValue)
    (h : validateElementManifest m = []) :
    ∃ s, jGet m "elementType" = some (.str s) := by
  have hok := elementTypeOk_of_vem_nil m h
  unfold elementTypeOkAt at hok
  cases hk : jGet m "elementType" with
  | none => rw [hk] at hok; simp at hok
  | some v =>
      rw [hk] at hok
      cases v <;> simp at hok
      exact ⟨_, rfl⟩

theorem tryLoadPlugin_plugins_cases (fs : FS) (d : FsPath)
    (res res' : DiscoveryResult) (h : tryLoadPlugin fs d res = .ok res') :
    res'.plugins = res.plugins ∨
    ∃ pkg jr, res'.plugins = res.plugins ++ [mkDiscovered d pkg jr] ∧
      validateElementManifest jr = [] ∧
      (res.plugins.any (fun p => jsStrictEq (jGet p.manifest "elementType")
        (jGet jr "elementType"))) = false := by
  unfold tryLoadPlugin at h
  dsimp only at h
  repeat' split at h
  all_goals cases h
  all_goals try exact Or.inl rfl
  all_goals refine Or.inr ⟨_, _, rfl, ?_, ?_⟩
  all_goals simp_all [List.isEmpty_iff]

theorem GoodPlugins_step (fs : FS) (d : FsPath) (res res' : DiscoveryResult)
    (h : tryLoadPlugin fs d res = .ok res') (hg : GoodPlugins res.plugins) :
    GoodPlugins res'.plugins := by
  rcases tryLoadPlugin_plugins_cases fs d res res' h with hsame | ⟨pkg, jr, heq, hvem, hany⟩
  · rw [hsame]; exact hg
  · rw [heq]
    obtain ⟨s, hs⟩ := key_str_of_vem_nil jr hvem
    constructor
    · intro p hp
      rcases List.mem_append.mp hp with hold | hnew
      · exact hg.1 p hold
      · rw [List.mem_singleton.mp hnew]
        exact ⟨s, by simpa [pluginKey, mkDiscovered] using hs⟩
    · refine List.pairwise_append.mpr ⟨hg.2, List.pairwise_singleton _ _, ?_⟩
      intro p hp q hq
      rw [List.mem_singleton.mp hq]
      have hfalse : jsStrictEq (jGet p.manifest "elementType")
          (jGet jr "elementType") = false := by
        have := List.any_eq_false.mp hany p hp
        simpa using this
      obtain ⟨a, ha⟩ := hg.1 p hp
      simp only [pluginKey] at ha
      intro hkeyeq
      simp only [pluginKey, mkDiscovered] at hkeyeq
      rw [ha, hs] at hkeyeq
      rw [ha, hs] at hfalse
      simp [jsStrictEq] at hfalse
      simp at hkeyeq
      exact hfalse hkeyeq

theorem processList_good (fs : FS) :
    ∀ (ds : List FsPath) (res res' : DiscoveryResult),
      processList fs ds res = .ok res' → GoodPlugins res.plugins →
      GoodPlugins res'.plugins
  | [], res, res', h, hg => by
      cases h
      exact hg
  | d :: ds, res, res', h, hg => by
      simp only [processList] at h
      cases htl : tryLoadPlugin fs d res with
      | error e => rw [htl] at h; cases h
      | ok mid =>
          rw [htl] at h
          exact processList_good fs ds mid res' h (GoodPlugins_step fs d res mid htl hg)

theorem discoverPlugins_good (fs : FS) (root : FsPath) (res : DiscoveryResult)
    (h : discoverPlugins fs root = .ok res) : GoodPlugins res.plugins := by
  rw [discoverPlugins_eq_processList] at h
  exact processList_good fs (candidates fs root) ⟨[], []⟩ res h
    ⟨fun p hp => absurd hp (List.not_mem_nil p), List.Pairwise.nil⟩

theorem buildPluginsLoop_ok_eq (opts : RegistryOptions) :
    ∀ (ps : List DiscoveredElementPlugin) (m0 m : RegMap),
      buildPluginsLoop opts ps m0 = .ok m →
      m = ps.foldl (fun acc p => mapSet acc (pluginKey p)
            (mkDefinition opts.officialPackages p)) m0
  | [], m0, m, h => by cases h; rfl
  | p :: ps, m0, m, h => by
      simp only [buildPluginsLoop] at h
      cases hcb : opts.onPluginFound p with
      | error e => rw [hcb] at h; cases h
      | ok u =>
          rw [hcb] at h
          have := buildPluginsLoop_ok_eq opts ps
            (mapSet m0 (jGet p.manifest "elementType")
              (mkDefinition opts.officialPackages p)) m h
          simpa [pluginKey] using this

theorem buildSkippedLoop_ok_eq (opts : RegistryOptions) :
    ∀ (es : List SkippedEntry) (m0 m : RegMap),
      buildSkippedLoop opts es m0 = .ok m → m = m0
  | [], m0, m, h => by cases h; rfl
  | e :: es, m0, m, h => by
      simp only [buildSkippedLoop] at h
      cases hcb : opts.onPluginSkipped e.path e.reason with
      | error x => rw [hcb] at h; cases h
      | ok u => rw [hcb] at h; exact buildSkippedLoop_ok_eq opts es m0 m h

theorem mapSet_fresh (m : RegMap) (k : Option JValue) (v : PluginElementDefinition)
    (h : m.any (fun e => decide (e.1 = k)) = false) : mapSet m k v = m ++ [(k, v)] := by
  unfold mapSet
  rw [h]
  simp

theorem foldl_mapSet_append (off : List String) :
    ∀ (ps : List DiscoveredElementPlugin) (m0 : RegMap),
      ps.Pairwise (fun p q => pluginKey p ≠ pluginKey q) →
      (∀ p ∈ ps, m0.any (fun e => decide (e.1 = pluginKey p)) = false) →
      ps.foldl (fun acc p => mapSet acc (pluginKey p) (mkDefinition off p)) m0
        = m0 ++ ps.map (fun p => (pluginKey p, mkDefinition off p))
  | [], m0, _, _ => by simp
  | p :: ps, m0, hdist, hfresh => by
      have hstep : mapSet m0 (pluginKey p) (mkDefinition off p)
          = m0 ++ [(pluginKey p, mkDefinition off p)] :=
        mapSet_fresh m0 _ _ (hfresh p (List.mem_cons_self p ps))
      have hfresh' : ∀ q ∈ ps,
          (m0 ++ [(pluginKey p, mkDefinition off p)]).any
            (fun e => decide (e.1 = pluginKey q)) = false := by
        intro q hq
        rw [List.any_append]
        have h1 := hfresh q (List.mem_cons_of_mem p hq)
        have h2 : pluginKey p ≠ pluginKey q :=
          (List.pairwise_cons.mp hdist).1 q hq
        simp [h1, h2]
      have rec := foldl_mapSet_append off ps (m0 ++ [(pluginKey p, mkDefinition off p)])
        (List.pairwise_cons.mp hdist).2 hfresh'
      simp only [List.foldl_cons, hstep]
      rw [rec]
      simp

theorem mapGet_buildMap (off : List String) (ps : List DiscoveredElementPlugin)
    (k : Option JValue) :
    mapGet (ps.map (fun p => (pluginKey p, mkDefinition off p))) k
      = (ps.find? (fun p => decide (pluginKey p = k))).map
          (fun p => mkDefinition off p) := by
  unfold mapGet
  rw [List.find?_map]
  have hpred : ((fun e : Option JValue × PluginElementDefinition => decide (e.1 = k))
      ∘ (fun p => (pluginKey p, mkDefinition off p)))
      = fun p => decide (pluginKey p = k) := rfl
  rw [hpred]
  cases ps.find? (fun p => decide (pluginKey p = k)) <;> simp

/-- C1: whenever a registry build completes (at construction or on
`refresh()`), the backing map is exactly the keyed image of the fresh scan's
plugin list: `get`/`has` answer positively for `t` iff the scan discovered a
plugin declaring `elementType` `t` (so entries absent from the new scan are
gone — the map depends only on the scan); the stored entry carries that
plugin's manifest, package name and version, has `loaded = false`, and its
tier is `official` iff the package name is a member of the configured
official-package set.  The scan's keys are pairwise distinct, so "that
plugin" is unique. -/
theorem registry_build_characterization (fs : FS) (root : FsPath)
    (opts : RegistryOptions) (reg : RegMap) (m : RegMap)
    (h : build fs root opts = .ok m) :
    createRegistry fs root opts = .ok m ∧
    refresh fs root opts reg = (m, .ok ()) ∧
    ∃ res, discoverPlugins fs root = .ok res ∧
      res.plugins.Pairwise (fun p q =>
        jGet p.manifest "elementType" ≠ jGet q.manifest "elementType") ∧
      ∀ t : String,
        ((regHas m t = true) ↔ ∃ p ∈ res.plugins,
            jGet p.manifest "elementType" = some (.str t)) ∧
        (∀ d, regGet m t = some d →
          ∃ p ∈ res.plugins,
            jGet p.manifest "elementType" = some (.str t) ∧
            d.manifest = p.manifest ∧ d.name = p.name ∧ d.version = p.version ∧
            d.loaded = false ∧
            (d.tier = PluginTier.official ↔
              officialHas opts.officialPackages p.name = true)) := by
  refine ⟨h, by unfold refresh; rw [h], ?_⟩
  unfold build at h
  cases hdisc : discoverPlugins fs root with
  | error e => rw [hdisc] at h; cases h
  | ok res =>
      rw [hdisc] at h
      dsimp only at h
      cases hbl : buildPluginsLoop opts res.plugins [] with
      | error e => rw [hbl] at h; cases h
      | ok m1 =>
          rw [hbl] at h
          have hm : m = m1 := buildSkippedLoop_ok_eq opts res.skipped m1 m h
          have good := discoverPlugins_good fs root res hdisc
          have hfold := buildPluginsLoop_ok_eq opts res.plugins [] m1 hbl
          have happ := foldl_mapSet_append opts.officialPackages res.plugins []
            good.2 (by intro p hp; simp)
          have hmap : m = res.plugins.map
              (fun p => (pluginKey p, mkDefinition opts.officialPackages p)) := by
            rw [hm, hfold, happ]
            simp
          refine ⟨res, rfl, good.2, ?_⟩
          intro t
          constructor
          · simp only [regHas, regGet, hmap, mapGet_buildMap]
            cases hf : res.plugins.find?
                (fun p => decide (pluginKey p = some (JValue.str t))) with
            | none =>
                simp only [hf, Option.map_none', Option.isSome_none,
                  Bool.false_eq_true, false_iff]
                intro hc
                obtain ⟨p, hp, hkey⟩ := hc
                have := List.find?_eq_none.mp hf p hp
                simp [pluginKey, hkey] at this
            | some p =>
                simp only [hf, Option.map_some', Option.isSome_some]
                exact iff_of_true trivial
                  ⟨p, List.mem_of_find?_eq_some hf,
                    by simpa [pluginKey] using List.find?_some hf⟩
          · intro d hd
            simp only [regGet, hmap, mapGet_buildMap] at hd
            rcases Option.map_eq_some'.mp hd with ⟨p, hfind, hdef⟩
            have hmem := List.mem_of_find?_eq_some hfind
            have hpred := List.find?_some hfind
            have hkey : pluginKey p = some (.str t) := by simpa using hpred
            refine ⟨p, hmem, by simpa [pluginKey] using hkey,
              ?_, ?_, ?_, ?_, ?_⟩ <;> rw [← hdef]
            · rfl
            · rfl
            · rfl
            · rfl
            · cases hoff : officialHas opts.officialPackages p.name <;>
                simp [mkDefinition, hoff]

/-- C1 witness fixture: two valid plugins, one of which is configured
official. -/
def c1fs : FS :=
  mkFS [["r"], ["r", "a"], ["r", "b"]]
    [(["r", "a", "package.json"],
      .json (pkgAround "pkg-a" "1.0.0" (manifestOk "el-a"))),
     (["r", "b", "package.json"],
      .json (pkgAround "pkg-b" "2.0.0" (manifestOk "el-b")))]

/-- C1 witness fixture: options marking `pkg-a` as official, observers
returning normally. -/
def c1opts : RegistryOptions :=
  { officialPackages := ["pkg-a"],
    onPluginFound := fun _ => .ok (),
    onPluginSkipped := fun _ _ => .ok () }

/-- C1 witness fixture: the expected backing map. -/
def c1map : RegMap :=
  [(some (.str "el-a"),
    { manifest := manifestOk "el-a", name := .str "pkg-a",
      version := .str "1.0.0", tier := .official, loaded := false }),
   (some (.str "el-b"),
    { manifest := manifestOk "el-b", name := .str "pkg-b",
      version := .str "2.0.0", tier := .community, loaded := false })]

/-- Witness for C1: on the concrete two-plugin filesystem the construction
build completes and produces exactly `c1map`. -/
theorem registry_build_characterization_witness :
    createRegistry c1fs ["r"] c1opts = .ok c1map :=
  (registry_build_characterization c1fs ["r"] c1opts [] c1map rfl).1
